import Mathlib

/-!
Shallow embedding of the alg-lib container library (src/Include) and proofs
about the claims of its specification.  Machine integers of the source
(size_t, int, uint32_t) are modelled as Nat or Int; the only place where
wrap-around of size_t is observable in the claims is the decrement in
Vector::Pop, which is modelled explicitly.  Indeterminate buffer slots
(memory obtained from new T[n] or value-initialised std::array slots that
were never written) are modelled as none; reads of freed heap nodes are
likewise modelled as none.  Fallible operations return a pair of an Except
result and the post-call state, matching C++ exception semantics where a
throw leaves the object in whatever state the statements already executed
put it in.
-/

namespace AlgLib

/-- Error kinds of the library, named after the message constants in
src/Include/constants.h, plus the std::out_of_range failure that
std::array::at can raise. -/
inductive AlgError where
  | itemNotFound
  | indexOutOfRange
  | emptyDeletion
  | objectFull
  | objectEmpty
  | peekAtEmpty
  | stdOutOfRange

/-! ## Vector (src/Include/vector.h)

State of alglib::Vector.  The capacity field of the source always equals the
allocated length of the buffer (every assignment to capacity in the source is
paired with an allocation of that length), so capacity is represented as the
length of the data list rather than duplicated. -/

structure VectorM (T : Type) where
  size : Nat
  data : List (Option T)

variable {T : Type}

/-- Capacity() accessor: the allocated buffer length. -/
def vecCapacity (v : VectorM T) : Nat := v.data.length

/-- Vector::Reallocate(amount): allocates a fresh buffer of the given length
(slots default-initialised, i.e. indeterminate, modelled none), truncates size
to amount when amount is smaller, and copies the first size elements. -/
def vecReallocate (v : VectorM T) (amount : Nat) : VectorM T :=
  let newSize := if amount < v.size then amount else v.size
  { size := newSize
    data := (List.range amount).map fun i =>
      if i < newSize then v.data.getD i none else none }

/-- Default constructor Vector(): size 0, capacity 0, then Reallocate(4). -/
def vecNew (T : Type) : VectorM T := vecReallocate { size := 0, data := [] } 4

/-- Constructor Vector(size_t elements): size 0, capacity 0, then
Reallocate(elements). -/
def vecNewElems (T : Type) (elements : Nat) : VectorM T :=
  vecReallocate { size := 0, data := [] } elements

/-- Vector::Push(value): if size is at least capacity, Reallocate(capacity*2)
first (note: no minimum of 1, unlike Insert); then data[size++] = value.
An out-of-bounds store (only possible when the reallocation produced a
zero-length buffer) is modelled by List.set leaving the list unchanged. -/
def vecPush (v : VectorM T) (value : T) : VectorM T :=
  let v1 := if vecCapacity v ≤ v.size then vecReallocate v (vecCapacity v * 2) else v
  { size := v1.size + 1, data := v1.data.set v1.size (some value) }

/-- The element-shifting loop of Vector::Insert: for i from size down to
index+1, data[i] = data[i-1]. -/
def vecShift (d : List (Option T)) (i index : Nat) : List (Option T) :=
  if h : index < i then vecShift (d.set i (d.getD (i - 1) none)) (i - 1) index else d
  termination_by i
  decreasing_by omega

/-- Vector::Insert(value, index): throws kIndexOutOfRange when index > size
(before any mutation); otherwise grows via Reallocate(capacity == 0 ? 1 :
capacity * 2) when size + 1 > capacity, shifts the tail right and writes the
value at index. -/
def vecInsert (v : VectorM T) (value : T) (index : Nat) :
    Except AlgError Unit × VectorM T :=
  if v.size < index then (.error .indexOutOfRange, v)
  else
    let v1 :=
      if vecCapacity v < v.size + 1 then
        vecReallocate v (if vecCapacity v = 0 then 1 else vecCapacity v * 2)
      else v
    let d := vecShift v1.data v1.size index
    (.ok (), { size := v1.size + 1, data := d.set index (some value) })

/-- Vector::Pop(): return data[size--], i.e. the slot at index size (one past
the last live element) is read, and only then is size decremented.  The
decrement of the size_t field wraps at zero. -/
def vecPop (v : VectorM T) : Option T × VectorM T :=
  (v.data.getD v.size none,
   { v with size := if v.size = 0 then 2 ^ 64 - 1 else v.size - 1 })

/-- The write loop of the initializer-list assignment: size = 0, then
data[size++] = element for each list element, filling consecutive slots from
index 0.  A store past the end of the buffer (unreachable from operator=) is
dropped, matching the out-of-bounds model used elsewhere. -/
def vecWriteList : List (Option T) → List T → List (Option T)
  | d, [] => d
  | [], _ :: _ => []
  | _ :: d, x :: xs => some x :: vecWriteList d xs

/-- Vector::operator=(std::initializer_list): when the list is longer than the
capacity, a fresh buffer of exactly the list length replaces the old one;
size is reset to 0 and every list element is stored in order, leaving size
equal to the list length. -/
def vecAssignList (v : VectorM T) (l : List T) : VectorM T :=
  let d0 :=
    if vecCapacity v < l.length then List.replicate l.length (none : Option T)
    else v.data
  { size := l.length, data := vecWriteList d0 l }

/-- The live elements of a vector: the first size slots of the buffer. -/
def vecToList (v : VectorM T) : List (Option T) := v.data.take v.size

/-- Push every element of a list in order. -/
def vecPushList (v : VectorM T) (l : List T) : VectorM T := l.foldl vecPush v

/-! Forward iterators, modelled as signed offsets from the data pointer.
begin() is the data pointer itself (offset 0) and end() is data + size - 1 as
written in the source. -/

/-- Vector::begin(): iterator at the data pointer. -/
def vecBeginIdx (_ : VectorM T) : Int := 0

/-- Vector::end(): iterator at data + size - 1 as written in the source. -/
def vecEndIdx (v : VectorM T) : Int := (v.size : Int) - 1

/-- Dereference of a forward iterator at a signed offset from data; offsets
outside the allocation read indeterminate memory, modelled none. -/
def vecReadIdx (v : VectorM T) (i : Int) : Option T :=
  if 0 ≤ i ∧ i < (vecCapacity v : Int) then v.data.getD i.toNat none else none

/-- One step of the canonical iteration loop: for (it = begin; it != end; ++it)
collect the dereferenced element.  Fuel bounds the loop for the model; the
fuel used below always suffices to reach the stop offset. -/
def vecIterCollect (v : VectorM T) : Int → Int → Nat → List (Option T)
  | _, _, 0 => []
  | pos, stop, fuel + 1 =>
    if pos = stop then [] else vecReadIdx v pos :: vecIterCollect v (pos + 1) stop fuel

/-- The elements visited by forward iteration from begin() to end() with
operator++ and inequality comparison by pointer identity. -/
def vecForwardIterList (v : VectorM T) : List (Option T) :=
  vecIterCollect v (vecBeginIdx v) (vecEndIdx v) v.size

/-! ## ArrayStack (src/Include/array_stack.h)

State of alglib::ArrayStack.  The std::array backing buffer has its fixed
length as the length of the data list (never changed by any operation);
value-initialised slots that were never pushed are modelled none.  topIndex is
an int in the source and is modelled as Int. -/

structure ArrayStackM (T : Type) where
  data : List (Option T)
  topIndex : Int

/-- ArrayStack constructor: value-initialised buffer of the template capacity,
topIndex = -1. -/
def asInit (T : Type) (capacity : Nat) : ArrayStackM T :=
  { data := List.replicate capacity (none : Option T), topIndex := -1 }

/-- The template capacity of the stack: the fixed std::array length. -/
def asCapacity (s : ArrayStackM T) : Nat := s.data.length

/-- ArrayStack::Push(val): topIndex++ happens first; then the test
topIndex >= capacity compares the int against the unsigned size_t capacity, so
a negative topIndex converts to a huge unsigned value and also fails the test;
on failure kObjectFull is thrown with topIndex already incremented.  On
success data[topIndex] = val. -/
def asPush (s : ArrayStackM T) (val : T) : Except AlgError Unit × ArrayStackM T :=
  let t := s.topIndex + 1
  if t < 0 ∨ (asCapacity s : Int) ≤ t then
    (.error .objectFull, { s with topIndex := t })
  else
    (.ok (), { data := s.data.set t.toNat (some val), topIndex := t })

/-- ArrayStack::Size(): topIndex + 1 converted to size_t. -/
def asSize (s : ArrayStackM T) : Int := s.topIndex + 1

/-! ## CircularQueue (src/Include/circular_queue.h)

State of alglib::CircularQueue.  The std::array length is the template
capacity; front and size are size_t fields. -/

structure CircQueueM (T : Type) where
  queue : List (Option T)
  front : Nat
  size : Nat

/-- CircularQueue constructor: value-initialised buffer, front = 0, size = 0. -/
def cqInit (T : Type) (capacity : Nat) : CircQueueM T :=
  { queue := List.replicate capacity (none : Option T), front := 0, size := 0 }

/-- The template capacity of the queue: the fixed std::array length. -/
def cqCapacity (s : CircQueueM T) : Nat := s.queue.length

/-- CircularQueue::Enqueue(value): throws kObjectFull when size = capacity
(before any mutation); otherwise writes queue.at((front + size) % capacity)
and increments size.  The bounds check of std::array::at is modelled by the
inner branch; it cannot fail when the full check has passed. -/
def cqEnqueue (s : CircQueueM T) (value : T) : Except AlgError Unit × CircQueueM T :=
  if s.size = cqCapacity s then (.error .objectFull, s)
  else
    let rear := (s.front + s.size) % cqCapacity s
    if rear < cqCapacity s then
      (.ok (), { s with queue := s.queue.set rear (some value), size := s.size + 1 })
    else (.error .stdOutOfRange, s)

/-- CircularQueue::Dequeue(): throws kEmptyDeletion when size = 0; otherwise
reads queue.at(front), advances front = (front + 1) % capacity and decrements
size. -/
def cqDequeue (s : CircQueueM T) : Except AlgError (Option T) × CircQueueM T :=
  if s.size = 0 then (.error .emptyDeletion, s)
  else
    match s.queue.get? s.front with
    | none => (.error .stdOutOfRange, s)
    | some r =>
      (.ok r, { s with front := (s.front + 1) % cqCapacity s, size := s.size - 1 })

/-- CircularQueue::PeekFront(): throws kPeekAtEmpty when empty; otherwise
returns queue.at(front) without mutating. -/
def cqPeekFront (s : CircQueueM T) : Except AlgError (Option T) × CircQueueM T :=
  if s.size = 0 then (.error .peekAtEmpty, s)
  else
    match s.queue.get? s.front with
    | none => (.error .stdOutOfRange, s)
    | some r => (.ok r, s)

/-- CircularQueue::PeekRear(): throws kPeekAtEmpty when empty; otherwise
returns queue.at((front + size - 1) % capacity) without mutating. -/
def cqPeekRear (s : CircQueueM T) : Except AlgError (Option T) × CircQueueM T :=
  if s.size = 0 then (.error .peekAtEmpty, s)
  else
    match s.queue.get? ((s.front + s.size - 1) % cqCapacity s) with
    | none => (.error .stdOutOfRange, s)
    | some r => (.ok r, s)

/-- The state invariant of claim C9: the front index lies inside the buffer
and the element count never exceeds the capacity. -/
def cqInv (s : CircQueueM T) : Prop :=
  s.front < cqCapacity s ∧ s.size ≤ cqCapacity s

instance (s : CircQueueM T) : Decidable (cqInv s) :=
  inferInstanceAs (Decidable (s.front < cqCapacity s ∧ s.size ≤ cqCapacity s))

/-! ## SLLQueue (src/Include/sll_queue.h)

State of alglib::SLLQueue.  Heap nodes live in an arena indexed by allocation
order: slot a of the heap list holds some (val, next) while the node is
allocated and none once it has been deleted.  front and rear are the two node
pointers of the queue (none = nullptr). -/

structure SLLQueueM (T : Type) where
  heap : List (Option (T × Option Nat))
  front : Option Nat
  rear : Option Nat

/-- The empty queue: front and rear null. -/
def sllEmpty (T : Type) : SLLQueueM T := { heap := [], front := none, rear := none }

/-- SLLQueue::IsEmpty(): front == nullptr. -/
def sllIsEmpty (q : SLLQueueM T) : Bool := q.front = none

/-- Store a new next pointer in the node at the given address; a store through
a dangling pointer (freed slot) is dropped, standing in for the undefined
behaviour of the source. -/
def sllSetNext (h : List (Option (T × Option Nat))) (a : Nat) (nxt : Option Nat) :
    List (Option (T × Option Nat)) :=
  match h.getD a none with
  | none => h
  | some (v, _) => h.set a (some (v, nxt))

/-- SLLQueue::Enqueue(value): allocate a node with next = nullptr; if the
queue is empty set front = rear = the new node; then UNCONDITIONALLY (as in
the source, which lacks an else) link rear->next = new node and advance
rear = rear->next.  On an empty queue this links the single node to itself. -/
def sllEnqueue (q : SLLQueueM T) (value : T) : SLLQueueM T :=
  let a := q.heap.length
  let h1 := q.heap ++ [some (value, (none : Option Nat))]
  let f1 : Option Nat := if sllIsEmpty q then some a else q.front
  let r1 : Option Nat := if sllIsEmpty q then some a else q.rear
  match r1 with
  | some r => { heap := sllSetNext h1 r (some a), front := f1, rear := some a }
  | none => { heap := h1, front := f1, rear := some a }

/-- SLLQueue::Dequeue(): throws kEmptyDeletion when front == nullptr;
otherwise captures front->val, advances front = front->next, resets rear to
nullptr only when the new front is nullptr, and deletes the old front node.
Reads through a dangling front pointer yield none. -/
def sllDequeue (q : SLLQueueM T) : Except AlgError (Option T) × SLLQueueM T :=
  match q.front with
  | none => (.error .emptyDeletion, q)
  | some f =>
    let node := q.heap.getD f none
    let result := node.map Prod.fst
    let newFront := node.bind Prod.snd
    let newRear := if newFront = none then none else q.rear
    (.ok result, { heap := q.heap.set f none, front := newFront, rear := newRear })

/-! ## DoublyLinkedList (src/Include/doubly_linked_list.h)

State of alglib::DoublyLinkedList.  Heap nodes live in an arena indexed by
allocation order, as for the queue; each node carries next, previous and data.
head and tail are the two list pointers (none = nullptr). -/

structure DLLNodeM (T : Type) where
  next : Option Nat
  previous : Option Nat
  data : T

structure DLLM (T : Type) where
  heap : List (Option (DLLNodeM T))
  head : Option Nat
  tail : Option Nat

/-- The empty list: head and tail null. -/
def dllEmpty (T : Type) : DLLM T := { heap := [], head := none, tail := none }

/-- DoublyLinkedList::IsEmpty(): head == nullptr. -/
def dllIsEmpty (d : DLLM T) : Bool := d.head = none

/-- Read the node at an address; a dangling address yields none. -/
def dllGet (h : List (Option (DLLNodeM T))) (a : Nat) : Option (DLLNodeM T) :=
  h.getD a none

/-- Store a new next pointer in the node at the given address; a store through
a dangling pointer is dropped. -/
def dllSetNext (h : List (Option (DLLNodeM T))) (a : Nat) (nxt : Option Nat) :
    List (Option (DLLNodeM T)) :=
  match dllGet h a with
  | none => h
  | some nd => h.set a (some { nd with next := nxt })

/-- Store a new previous pointer in the node at the given address; a store
through a dangling pointer is dropped. -/
def dllSetPrev (h : List (Option (DLLNodeM T))) (a : Nat) (prv : Option Nat) :
    List (Option (DLLNodeM T)) :=
  match dllGet h a with
  | none => h
  | some nd => h.set a (some { nd with previous := prv })

/-- The loop curr = curr->next repeated n times, starting from a node
pointer; stepping through null or a dangling pointer yields none. -/
def dllWalk (h : List (Option (DLLNodeM T))) : Option Nat → Nat → Option Nat
  | p, 0 => p
  | p, n + 1 => dllWalk h (p.bind fun a => (dllGet h a).bind DLLNodeM.next) n

/-- The counting loop of DoublyLinkedList::Size(), walking next pointers from
a start node with explicit fuel (the source loop has no bound; the fuel below
is the heap length, which suffices for every next-acyclic state). -/
def dllSizeAux (h : List (Option (DLLNodeM T))) : Option Nat → Nat → Nat
  | none, _ => 0
  | some _, 0 => 0
  | some a, fuel + 1 => 1 + dllSizeAux h ((dllGet h a).bind DLLNodeM.next) fuel

/-- DoublyLinkedList::Size(): walks the next chain from head, counting. -/
def dllSize (d : DLLM T) : Nat := dllSizeAux d.heap d.head d.heap.length

/-- DoublyLinkedList::InsertAtBeginning(data): allocate a node; if the list is
empty it becomes both head and tail, otherwise it is linked before the old
head. -/
def dllInsertAtBeginning (d : DLLM T) (data : T) : DLLM T :=
  let a := d.heap.length
  let h1 := d.heap ++ [some ⟨none, none, data⟩]
  match d.head with
  | none => { heap := h1, head := some a, tail := some a }
  | some hd =>
    { heap := dllSetPrev (dllSetNext h1 a (some hd)) hd (some a)
      head := some a, tail := d.tail }

/-- DoublyLinkedList::InsertAtEnd(data): allocate a node; if the list is empty
it becomes both head and tail, otherwise it is linked after the old tail. -/
def dllInsertAtEnd (d : DLLM T) (data : T) : DLLM T :=
  let a := d.heap.length
  let h1 := d.heap ++ [some ⟨none, none, data⟩]
  match d.tail with
  | none => { heap := h1, head := some a, tail := some a }
  | some tl =>
    { heap := dllSetPrev (dllSetNext h1 tl (some a)) a (some tl)
      head := d.head, tail := some a }

/-- DoublyLinkedList::InsertAtPosition(pos, data): throws kIndexOutOfRange
when pos > Size(); pos 0 delegates to InsertAtBeginning and pos = Size() to
InsertAtEnd; otherwise walks pos - 1 nodes from head to prev_node and splices
the new node between prev_node and prev_node->next, updating both directions.
A walk that runs off the chain (impossible for in-range pos) leaves the list
unchanged, standing in for the null dereference of the source. -/
def dllInsertAtPosition (d : DLLM T) (pos : Nat) (data : T) :
    Except AlgError Unit × DLLM T :=
  let currentSize := dllSize d
  if currentSize < pos then (.error .indexOutOfRange, d)
  else if pos = 0 then (.ok (), dllInsertAtBeginning d data)
  else if pos = currentSize then (.ok (), dllInsertAtEnd d data)
  else
    match dllWalk d.heap d.head (pos - 1) with
    | none => (.ok (), d)
    | some prevNode =>
      let a := d.heap.length
      let nextNode := (dllGet d.heap prevNode).bind DLLNodeM.next
      let h1 := d.heap ++ [some ⟨nextNode, some prevNode, data⟩]
      let h2 := dllSetNext h1 prevNode (some a)
      let h3 := match nextNode with
        | none => h2
        | some nn => dllSetPrev h2 nn (some a)
      (.ok (), { heap := h3, head := d.head, tail := d.tail })

/-- DoublyLinkedList::DeleteAtBeginning(): throws kEmptyDeletion on an empty
list; a single-node list becomes empty; otherwise head advances and the new
head gets previous = nullptr, and the old head node is deleted. -/
def dllDeleteAtBeginning (d : DLLM T) : Except AlgError Unit × DLLM T :=
  match d.head with
  | none => (.error .emptyDeletion, d)
  | some hd =>
    if d.head = d.tail then
      (.ok (), { heap := d.heap.set hd none, head := none, tail := none })
    else
      match (dllGet d.heap hd).bind DLLNodeM.next with
      | none => (.ok (), d)
      | some newHead =>
        (.ok (), { heap := (dllSetPrev d.heap newHead none).set hd none
                   head := some newHead, tail := d.tail })

/-- DoublyLinkedList::DeleteAtEnd(): throws kEmptyDeletion on an empty list; a
single-node list becomes empty; otherwise tail retreats and the new tail gets
next = nullptr, and the old tail node is deleted. -/
def dllDeleteAtEnd (d : DLLM T) : Except AlgError Unit × DLLM T :=
  match d.tail with
  | none => (.error .emptyDeletion, d)
  | some tl =>
    if d.head = d.tail then
      (.ok (), { heap := d.heap.set tl none, head := none, tail := none })
    else
      match (dllGet d.heap tl).bind DLLNodeM.previous with
      | none => (.ok (), d)
      | some newTail =>
        (.ok (), { heap := (dllSetNext d.heap newTail none).set tl none
                   head := d.head, tail := some newTail })

/-- DoublyLinkedList::DeleteAtPosition(pos): throws kEmptyDeletion on an empty
list and kIndexOutOfRange when pos >= Size(); pos 0 delegates to
DeleteAtBeginning and pos = Size() - 1 to DeleteAtEnd; otherwise walks pos
nodes to curr and relinks the neighbours, where the source sets
next_node->previous = next_node (the node itself, not prev_node), then deletes
curr. -/
def dllDeleteAtPosition (d : DLLM T) (pos : Nat) : Except AlgError Unit × DLLM T :=
  if dllIsEmpty d then (.error .emptyDeletion, d)
  else
    let currentSize := dllSize d
    if currentSize ≤ pos then (.error .indexOutOfRange, d)
    else if pos = 0 then dllDeleteAtBeginning d
    else if pos = currentSize - 1 then dllDeleteAtEnd d
    else
      match dllWalk d.heap d.head pos with
      | none => (.ok (), d)
      | some curr =>
        let prevNode := (dllGet d.heap curr).bind DLLNodeM.previous
        let nextNode := (dllGet d.heap curr).bind DLLNodeM.next
        let h1 := match prevNode with
          | none => d.heap
          | some p => dllSetNext d.heap p nextNode
        let h2 := match nextNode with
          | none => h1
          | some n => dllSetPrev h1 n (some n)
        (.ok (), { heap := h2.set curr none, head := d.head, tail := d.tail })

/-- The back-link invariant of claim C4, as a decidable check over the arena:
every allocated node n with n.next non-null has n.next.previous = n, the head
node has previous = nullptr and the tail node has next = nullptr. -/
def dllInvB (d : DLLM T) : Bool :=
  ((List.range d.heap.length).all fun a =>
    match dllGet d.heap a with
    | none => true
    | some nd =>
      match nd.next with
      | none => true
      | some b =>
        match dllGet d.heap b with
        | none => false
        | some nb => nb.previous = some a)
  && (match d.head with
      | none => true
      | some hd =>
        match dllGet d.heap hd with
        | none => false
        | some nh => nh.previous = none)
  && (match d.tail with
      | none => true
      | some tl =>
        match dllGet d.heap tl with
        | none => false
        | some nt => nt.next = none)

/-! ## Claim theorems -/

/-- C1: the claim states that Pop on a Vector of size 1 obtained by pushing 10
returns the logically-last live element 10 (index size - 1) and decrements
size.  In the source Pop is data[size--], which reads the slot at index size
(one past the last live element, an indeterminate slot, modelled none) before
decrementing, so the returned value is not the pushed element.  The size
decrement itself does happen. -/
theorem c1_pop_reads_one_past_last :
    (vecPop (vecPush (vecNew Nat) 10)).1 = none ∧
    (vecPop (vecPush (vecNew Nat) 10)).1 ≠ some 10 ∧
    (vecPop (vecPush (vecNew Nat) 10)).2.size = 0 :=
  ⟨rfl, fun h => Option.noConfusion h, rfl⟩

/-- C2: the claim states that forward iteration from begin() to end() over a
Vector holding [3, 6, 12, 1, 20] visits exactly the 5 live elements.  In the
source end() is data + size - 1, so the loop stops one element early and
visits only 3, 6, 12, 1. -/
theorem c2_forward_iteration_misses_last :
    (vecPushList (vecNew Nat) [3, 6, 12, 1, 20]).size = 5 ∧
    vecEndIdx (vecPushList (vecNew Nat) [3, 6, 12, 1, 20]) = 4 ∧
    vecForwardIterList (vecPushList (vecNew Nat) [3, 6, 12, 1, 20]) =
      [some 3, some 6, some 12, some 1] :=
  ⟨rfl, rfl, rfl⟩

/-- C3: the claim states that Enqueue on an empty SLLQueue makes the new node
both front and rear and that a following Dequeue returns its value and
empties the queue.  In the source the empty-queue branch of Enqueue falls
through to the rear-linking statements, so the single node is linked to
itself; the following Dequeue returns the value but advances front to the
just-deleted self-linked node, leaving the queue non-empty with a dangling
front and rear. -/
theorem c3_enqueue_self_link_breaks_dequeue :
    (sllEnqueue (sllEmpty Nat) 1).front = some 0 ∧
    (sllEnqueue (sllEmpty Nat) 1).rear = some 0 ∧
    (sllEnqueue (sllEmpty Nat) 1).heap = [some (1, some 0)] ∧
    (sllDequeue (sllEnqueue (sllEmpty Nat) 1)).1 = Except.ok (some 1) ∧
    sllIsEmpty (sllDequeue (sllEnqueue (sllEmpty Nat) 1)).2 = false ∧
    (sllDequeue (sllEnqueue (sllEmpty Nat) 1)).2.front = some 0 ∧
    (sllDequeue (sllEnqueue (sllEmpty Nat) 1)).2.heap = [none] :=
  ⟨rfl, rfl, rfl, rfl, rfl, rfl, rfl⟩

/-- C4: the claim states that the back-link invariant survives every sequence
of inserts and deletes.  Building [1, 2, 3] with InsertAtEnd satisfies the
invariant, but DeleteAtPosition(1) sets the previous pointer of the surviving
successor node to the successor itself (next_node->previous = next_node in the
source), breaking n.next.previous = n for the head node. -/
theorem c4_delete_at_position_breaks_backlink :
    dllInvB (dllInsertAtEnd (dllInsertAtEnd (dllInsertAtEnd (dllEmpty Nat) 1) 2) 3)
      = true ∧
    (dllDeleteAtPosition
      (dllInsertAtEnd (dllInsertAtEnd (dllInsertAtEnd (dllEmpty Nat) 1) 2) 3) 1).1
      = Except.ok () ∧
    dllInvB (dllDeleteAtPosition
      (dllInsertAtEnd (dllInsertAtEnd (dllInsertAtEnd (dllEmpty Nat) 1) 2) 3) 1).2
      = false ∧
    dllGet (dllDeleteAtPosition
      (dllInsertAtEnd (dllInsertAtEnd (dllInsertAtEnd (dllEmpty Nat) 1) 2) 3) 1).2.heap 2
      = some { next := none, previous := some 2, data := 3 } :=
  ⟨rfl, rfl, rfl, rfl⟩

/-- C5: the claim states that Push on a full ArrayStack reports
CapacityExceeded and leaves the stack unchanged with Size() = N.  In the
source Push increments topIndex before the capacity check, so the failed push
on a full ArrayStack of capacity 2 leaves topIndex = 2 (it was 1 before the
call) and Size() = 3. -/
theorem c5_failed_push_mutates_top_index :
    (asPush ((asPush ((asPush (asInit Nat 2) 1).2) 2).2) 3).1
      = Except.error AlgError.objectFull ∧
    ((asPush ((asPush (asInit Nat 2) 1).2) 2).2).topIndex = 1 ∧
    asSize ((asPush ((asPush (asInit Nat 2) 1).2) 2).2) = 2 ∧
    (asPush ((asPush ((asPush (asInit Nat 2) 1).2) 2).2) 3).2.topIndex = 2 ∧
    asSize (asPush ((asPush ((asPush (asInit Nat 2) 1).2) 2).2) 3).2 = 3 :=
  ⟨rfl, rfl, rfl, rfl, rfl⟩

/-- C6 counterexample: the claim states that any insertion into a Vector of
capacity 0 leaves a positive capacity.  Push on a Vector constructed with
capacity 0 calls Reallocate(0 * 2) and the capacity stays 0. -/
theorem c6_push_at_zero_capacity_counterexample :
    ¬ 0 < vecCapacity (vecPush (vecNewElems Nat 0) 7) := by decide

/-- C7: starting from a default-constructed Vector (capacity 4, size 0),
pushing 5 elements yields capacity 8 with the 5 elements live in order, and
pushing 4 more and a 9th yields capacity 16 with all 9 elements live in
order, so every reallocation preserved the previously pushed elements. -/
theorem c7_growth_law (a b c d e f g h i : Nat) :
    vecCapacity (vecNew Nat) = 4 ∧ (vecNew Nat).size = 0 ∧
    vecCapacity (vecPushList (vecNew Nat) [a, b, c, d, e]) = 8 ∧
    vecToList (vecPushList (vecNew Nat) [a, b, c, d, e]) =
      [some a, some b, some c, some d, some e] ∧
    vecCapacity (vecPushList (vecNew Nat) [a, b, c, d, e, f, g, h, i]) = 16 ∧
    vecToList (vecPushList (vecNew Nat) [a, b, c, d, e, f, g, h, i]) =
      [some a, some b, some c, some d, some e, some f, some g, some h, some i] := by
  have h1 : vecPush (vecNew Nat) a
      = { size := 1, data := [some a, none, none, none] } := rfl
  have h2 : vecPush { size := 1, data := [some a, none, none, none] } b
      = { size := 2, data := [some a, some b, none, none] } := rfl
  have h3 : vecPush { size := 2, data := [some a, some b, none, none] } c
      = { size := 3, data := [some a, some b, some c, none] } := rfl
  have h4 : vecPush { size := 3, data := [some a, some b, some c, none] } d
      = { size := 4, data := [some a, some b, some c, some d] } := rfl
  have h5 : vecPush { size := 4, data := [some a, some b, some c, some d] } e
      = { size := 5, data := [some a, some b, some c, some d, some e,
          none, none, none] } := rfl
  have h6 : vecPush { size := 5, data := [some a, some b, some c, some d, some e,
        none, none, none] } f
      = { size := 6, data := [some a, some b, some c, some d, some e, some f,
          none, none] } := rfl
  have h7 : vecPush { size := 6, data := [some a, some b, some c, some d, some e,
        some f, none, none] } g
      = { size := 7, data := [some a, some b, some c, some d, some e, some f,
          some g, none] } := rfl
  have h8 : vecPush { size := 7, data := [some a, some b, some c, some d, some e,
        some f, some g, none] } h
      = { size := 8, data := [some a, some b, some c, some d, some e, some f,
          some g, some h] } := rfl
  have h9 : vecPush { size := 8, data := [some a, some b, some c, some d, some e,
        some f, some g, some h] } i
      = { size := 9, data := [some a, some b, some c, some d, some e, some f,
          some g, some h, some i, none, none, none, none, none, none, none] } := rfl
  have e5 : vecPushList (vecNew Nat) [a, b, c, d, e]
      = { size := 5, data := [some a, some b, some c, some d, some e,
          none, none, none] } := by
    show vecPush (vecPush (vecPush (vecPush (vecPush (vecNew Nat) a) b) c) d) e = _
    rw [h1, h2, h3, h4, h5]
  have e9 : vecPushList (vecNew Nat) [a, b, c, d, e, f, g, h, i]
      = { size := 9, data := [some a, some b, some c, some d, some e, some f,
          some g, some h, some i, none, none, none, none, none, none, none] } := by
    show vecPush (vecPush (vecPush (vecPush (vecPush (vecPush (vecPush (vecPush
      (vecPush (vecNew Nat) a) b) c) d) e) f) g) h) i = _
    rw [h1, h2, h3, h4, h5, h6, h7, h8, h9]
  refine ⟨rfl, rfl, ?_, ?_, ?_, ?_⟩
  · rw [e5]; rfl
  · rw [e5]; rfl
  · rw [e9]; rfl
  · rw [e9]; rfl

/-- C8: on a CircularQueue of capacity 3, enqueueing 10, 20, 30, dequeueing
once (returns 10), enqueueing 40 into the freed wrap-around slot, and
dequeueing three more times returns 20, 30, 40 in order. -/
theorem c8_circular_queue_scenario :
    (cqEnqueue (cqInit Nat 3) 10).1 = Except.ok () ∧
    (cqEnqueue (cqEnqueue (cqInit Nat 3) 10).2 20).1 = Except.ok () ∧
    (cqEnqueue (cqEnqueue (cqEnqueue (cqInit Nat 3) 10).2 20).2 30).1
      = Except.ok () ∧
    (cqDequeue (cqEnqueue (cqEnqueue (cqEnqueue (cqInit Nat 3) 10).2 20).2 30).2).1
      = Except.ok (some 10) ∧
    (cqEnqueue
      (cqDequeue (cqEnqueue (cqEnqueue (cqEnqueue (cqInit Nat 3) 10).2 20).2 30).2).2
      40).1 = Except.ok () ∧
    (cqDequeue (cqEnqueue
      (cqDequeue (cqEnqueue (cqEnqueue (cqEnqueue (cqInit Nat 3) 10).2 20).2 30).2).2
      40).2).1 = Except.ok (some 20) ∧
    (cqDequeue (cqDequeue (cqEnqueue
      (cqDequeue (cqEnqueue (cqEnqueue (cqEnqueue (cqInit Nat 3) 10).2 20).2 30).2).2
      40).2).2).1 = Except.ok (some 30) ∧
    (cqDequeue (cqDequeue (cqDequeue (cqEnqueue
      (cqDequeue (cqEnqueue (cqEnqueue (cqEnqueue (cqInit Nat 3) 10).2 20).2 30).2).2
      40).2).2).2).1 = Except.ok (some 40) := by
  refine ⟨rfl, rfl, rfl, rfl, rfl, rfl, rfl, rfl⟩

/-! Helper lemmas about the Vector buffer primitives, shared by the claims
below. -/

theorem vecReallocate_length (v : VectorM T) (amount : Nat) :
    (vecReallocate v amount).data.length = amount := by
  simp [vecReallocate]

theorem vecReallocate_size (v : VectorM T) (amount : Nat) (h : ¬ amount < v.size) :
    (vecReallocate v amount).size = v.size := by
  simp [vecReallocate, if_neg h]

theorem vecShift_length (d : List (Option T)) (i index : Nat) :
    (vecShift d i index).length = d.length := by
  induction i using Nat.strong_induction_on generalizing d with
  | _ i ih =>
    unfold vecShift
    split_ifs with h
    · rw [ih (i - 1) (by omega), List.length_set]
    · rfl

theorem vecWriteList_length (d : List (Option T)) (l : List T) :
    (vecWriteList d l).length = d.length := by
  induction l generalizing d with
  | nil => cases d <;> rfl
  | cons x xs ih =>
    cases d with
    | nil => rfl
    | cons a d => simp [vecWriteList, ih]

theorem vecWriteList_take (l : List T) :
    ∀ d : List (Option T), l.length ≤ d.length →
      (vecWriteList d l).take l.length = l.map some := by
  induction l with
  | nil => intro d _; rfl
  | cons x xs ih =>
    intro d hd
    cases d with
    | nil => simp at hd
    | cons a d =>
      simp only [vecWriteList, List.length_cons, List.take_succ_cons, List.map_cons]
      exact congrArg (some x :: ·) (ih d (by simpa using hd))

/-- C6 amended: for a Vector whose size equals its capacity, Insert first
raises the capacity to max(1, 2 x old capacity) and stores the new element in
bounds; Push raises the capacity to 2 x old capacity, which coincides with
max(1, 2 x old capacity) and keeps the store in bounds whenever the old
capacity is positive (for old capacity 0, Push reallocates to capacity 0 and
the store is out of bounds, the counterexample above). -/
theorem c6_growth_amended (v : VectorM Nat) (x i : Nat)
    (hsc : v.size = vecCapacity v) :
    (i ≤ v.size →
      (vecInsert v x i).1 = Except.ok () ∧
      vecCapacity (vecInsert v x i).2 = max 1 (2 * vecCapacity v) ∧
      (vecInsert v x i).2.data.get? i = some (some x)) ∧
    (0 < vecCapacity v →
      vecCapacity (vecPush v x) = 2 * vecCapacity v ∧
      (vecPush v x).data.get? v.size = some (some x)) := by
  constructor
  · intro hi
    have hlt : ¬ v.size < i := by omega
    have hgrow : vecCapacity v < v.size + 1 := by omega
    have hamt : (if vecCapacity v = 0 then 1 else vecCapacity v * 2)
        = max 1 (2 * vecCapacity v) := by
      rcases Nat.eq_zero_or_pos (vecCapacity v) with h0 | h0
      · simp [h0]
      · rw [if_neg (by omega)]; omega
    have hin : i < (if vecCapacity v = 0 then 1 else vecCapacity v * 2) := by
      by_cases h0 : vecCapacity v = 0
      · rw [if_pos h0]; omega
      · rw [if_neg h0]; omega
    refine ⟨?_, ?_, ?_⟩
    · simp [vecInsert, if_neg hlt, if_pos hgrow]
    · simp only [vecInsert, if_neg hlt, if_pos hgrow]
      simp only [vecCapacity, List.length_set, vecShift_length, vecReallocate_length]
      exact hamt
    · simp only [vecInsert, if_neg hlt, if_pos hgrow]
      exact List.get?_set_eq_of_lt _
        (by rw [vecShift_length, vecReallocate_length]; exact hin)
  · intro hc
    have hle : vecCapacity v ≤ v.size := by omega
    have hsz : (vecReallocate v (vecCapacity v * 2)).size = v.size :=
      vecReallocate_size _ _ (by omega)
    simp only [vecPush, if_pos hle]
    refine ⟨?_, ?_⟩
    · simp only [vecCapacity, List.length_set, vecReallocate_length]
      omega
    · rw [hsz]
      exact List.get?_set_eq_of_lt _ (by rw [vecReallocate_length]; omega)

/-- Witness for the amended C6 at a concrete capacity-0 Vector. -/
theorem c6_growth_amended_witness :
    (vecInsert (vecNewElems Nat 0) 7 0).1 = Except.ok () ∧
    vecCapacity (vecInsert (vecNewElems Nat 0) 7 0).2
      = max 1 (2 * vecCapacity (vecNewElems Nat 0)) ∧
    (vecInsert (vecNewElems Nat 0) 7 0).2.data.get? 0 = some (some 7) :=
  (c6_growth_amended (vecNewElems Nat 0) 7 0 (by decide)).1 (by decide)

/-- C9: for a CircularQueue with positive capacity, the constructor
establishes, and every Enqueue, Dequeue, PeekFront and PeekRear call (whether
it succeeds or throws) preserves, the state invariant front in [0, N) and
size in [0, N]. -/
theorem c9_circular_queue_invariant (n : Nat) (hn : 0 < n)
    (s : CircQueueM Nat) (value : Nat) (hinv : cqInv s) :
    cqInv (cqInit Nat n) ∧
    cqInv (cqEnqueue s value).2 ∧ cqInv (cqDequeue s).2 ∧
    cqInv (cqPeekFront s).2 ∧ cqInv (cqPeekRear s).2 := by
  obtain ⟨hf, hs⟩ := hinv
  have hf' : s.front < s.queue.length := hf
  have hs' : s.size ≤ s.queue.length := hs
  have hcap : 0 < s.queue.length := by omega
  refine ⟨?_, ?_, ?_, ?_, ?_⟩
  · exact ⟨by simpa [cqInit, cqCapacity] using hn, by simp [cqInit, cqCapacity]⟩
  · simp only [cqEnqueue]
    split_ifs with h1 h2
    · exact ⟨hf, hs⟩
    · refine ⟨?_, ?_⟩
      · simpa [cqCapacity, List.length_set] using hf'
      · simp only [cqCapacity, List.length_set]
        simp only [cqCapacity] at h1
        omega
    · exact ⟨hf, hs⟩
  · simp only [cqDequeue]
    split_ifs with h1
    · exact ⟨hf, hs⟩
    · split
      · exact ⟨hf, hs⟩
      · refine ⟨?_, ?_⟩
        · exact Nat.mod_lt _ hcap
        · simp only [cqCapacity]
          omega
  · simp only [cqPeekFront]
    split_ifs with h1
    · exact ⟨hf, hs⟩
    · split
      · exact ⟨hf, hs⟩
      · exact ⟨hf, hs⟩
  · simp only [cqPeekRear]
    split_ifs with h1
    · exact ⟨hf, hs⟩
    · split
      · exact ⟨hf, hs⟩
      · exact ⟨hf, hs⟩

/-- Witness for C9 at capacity 3 and the freshly constructed queue. -/
theorem c9_circular_queue_invariant_witness :
    cqInv (cqInit Nat 3) ∧
    cqInv (cqEnqueue (cqInit Nat 3) 5).2 ∧ cqInv (cqDequeue (cqInit Nat 3)).2 ∧
    cqInv (cqPeekFront (cqInit Nat 3)).2 ∧ cqInv (cqPeekRear (cqInit Nat 3)).2 :=
  c9_circular_queue_invariant 3 (by decide) (cqInit Nat 3) 5 (by decide)

/-- C10: assigning an initializer list of length m to a Vector sets size to m
and stores the list elements in order at indices below m; the capacity is
unchanged when m fits the prior capacity (buffer reused) and becomes exactly
m otherwise. -/
theorem c10_initializer_list_assignment (v : VectorM Nat) (l : List Nat) :
    (vecAssignList v l).size = l.length ∧
    vecToList (vecAssignList v l) = l.map some ∧
    (l.length ≤ vecCapacity v → vecCapacity (vecAssignList v l) = vecCapacity v) ∧
    (vecCapacity v < l.length → vecCapacity (vecAssignList v l) = l.length) := by
  refine ⟨rfl, ?_, ?_, ?_⟩
  · show (vecAssignList v l).data.take (vecAssignList v l).size = l.map some
    unfold vecAssignList
    split_ifs with h
    · exact vecWriteList_take l _ (by simp)
    · exact vecWriteList_take l _ (by simp only [vecCapacity] at h; omega)
  · intro hle
    show (vecAssignList v l).data.length = vecCapacity v
    unfold vecAssignList
    rw [if_neg (by omega), vecWriteList_length]
    rfl
  · intro hlt
    show (vecAssignList v l).data.length = l.length
    unfold vecAssignList
    rw [if_pos hlt, vecWriteList_length, List.length_replicate]

/-- Witness for C10: assigning [5, 6] to a default Vector (capacity 4) reuses
the buffer, and the shorter-than-list branch is exercised by the theorem
instance itself. -/
theorem c10_initializer_list_assignment_witness :
    (vecAssignList (vecNew Nat) [5, 6]).size = 2 ∧
    vecToList (vecAssignList (vecNew Nat) [5, 6]) = [some 5, some 6] ∧
    vecCapacity (vecAssignList (vecNew Nat) [5, 6]) = vecCapacity (vecNew Nat) :=
  ⟨(c10_initializer_list_assignment (vecNew Nat) [5, 6]).1,
   (c10_initializer_list_assignment (vecNew Nat) [5, 6]).2.1,
   (c10_initializer_list_assignment (vecNew Nat) [5, 6]).2.2.1 (by decide)⟩

end AlgLib
